import Mathlib

/-!
# Pulse — verification of the navigation core and stack operations

Shallow embedding of the Pulse terminal UI for Docker stacks:

* `internal/docker/stack.go` — `ListStacks`, `ListContainers`, `KillStack`,
  `RestartStack`, `ViewStackLogs`, `ViewContainerLogs`;
* `internal/ui/model.go` — the `Model` state, the `Update` key-event handler
  and the `updateStackStats` helper.

The Docker engine is an external collaborator; it is modelled by the
`DockerClient` oracle structure below.  Engine-side behaviour that the code
relies on (label filtering for `ServiceList`) is modelled concretely from the
filter argument the Go code builds; everything else the engine may do (errors,
listings, log streams) is an unconstrained oracle field.  Go slice indexing
panics out of range; the embedded `Update` returns `none` in exactly those
situations.  `fmt.Println` debug output and the lipgloss style globals touched
by the window-resize branch have no observable effect on the model state and
are not modelled.
-/

namespace Pulse

/-- Options passed to the engine's log endpoints
(`container.LogsOptions` fields the code sets). -/
structure LogsOptions where
  showStdout : Bool
  showStderr : Bool
  tail : String
  timestamps : Bool
deriving DecidableEq, Repr

/-- A swarm service as the code reads it: identifier, `Spec.Name`, and
`Spec.Labels`. -/
structure Service where
  id : String
  specName : String
  labels : List (String × String)
deriving DecidableEq, Repr

/-- A container summary (`types.Container` fields the code reads). -/
structure Container where
  id : String
  names : List String
  image : String
  state : String
deriving DecidableEq, Repr

/-- The external orchestration engine, as an oracle.

* `allServices` — the services the engine currently knows; a `ServiceList`
  call filtered by `label=com.docker.stack.namespace=<name>` returns the
  matching subset (engine-side filter semantics).
* `serviceListFilteredErr name` — when `some e`, the filtered `ServiceList`
  call for `name` fails with `e` instead.
* `serviceListAllErr` — likewise for the unfiltered `ServiceList` call.
* `serviceRemove id` — `some e` when removing service `id` fails with `e`.
* `containerList name` — result of the engine's `ContainerList` call filtered
  by the stack-namespace label `name`.
* `containerLogs` / `serviceLogs` — outer `Except` is the call itself
  failing; the inner one is `io.ReadAll` on the returned stream failing. -/
structure DockerClient where
  allServices : List Service
  serviceListFilteredErr : String → Option String
  serviceListAllErr : Option String
  serviceRemove : String → Option String
  containerList : String → Except String (List Container)
  containerLogs : String → LogsOptions → Except String (Except String String)
  serviceLogs : String → LogsOptions → Except String (Except String String)

/-- Label lookup on a service's `Spec.Labels` map. -/
def lookupLabel (s : Service) (key : String) : Option String :=
  (s.labels.find? (fun p => p.1 == key)).map (fun p => p.2)

/-- Engine-side semantics of the `label=com.docker.stack.namespace=<name>`
filter the Go code builds with `filters.NewArgs()`. -/
def matchesStack (stackName : String) (s : Service) : Bool :=
  lookupLabel s "com.docker.stack.namespace" == some stackName

/-- `cli.ServiceList` with the stack-namespace label filter. -/
def ServiceList (cli : DockerClient) (stackName : String) :
    Except String (List Service) :=
  match cli.serviceListFilteredErr stackName with
  | some e => .error e
  | none => .ok (cli.allServices.filter (matchesStack stackName))

/-- `ListStacks` (stack.go:16-35): list all services, collect the distinct
values of the stack-namespace label.  The Go code deduplicates through a map
and then iterates it in unspecified order; the embedding fixes
first-occurrence order, which no theorem below depends on. -/
def ListStacks (cli : DockerClient) : Except String (List String) :=
  match cli.serviceListAllErr with
  | some e => .error e
  | none =>
    .ok ((cli.allServices.filterMap
      (fun s => lookupLabel s "com.docker.stack.namespace")).dedup)

/-- `ListContainers` (stack.go:38-49): engine-filtered container listing,
error wrapped with the stack name. -/
def ListContainers (cli : DockerClient) (stackName : String) :
    Except String (List Container) :=
  match cli.containerList stackName with
  | .error e =>
    .error ("error listing containers for stack " ++ stackName ++ ": " ++ e)
  | .ok cs => .ok cs

/-- The removal loop of `KillStack` (stack.go:63-67).  The second component
is the trace of service identifiers on which `ServiceRemove` was attempted,
in order; an attempt with oracle value `none` succeeded (the service is
removed), and the first failing attempt aborts the loop. -/
def killLoop (cli : DockerClient) : List Service → Except String Unit × List String
  | [] => (.ok (), [])
  | s :: rest =>
    match cli.serviceRemove s.id with
    | some err =>
      (.error ("error removing service " ++ s.specName ++ ": " ++ err), [s.id])
    | none =>
      let r := killLoop cli rest
      (r.1, s.id :: r.2)

/-- `KillStack` (stack.go:52-70): list the services matching the stack's
namespace label, remove each in order, abort on first failure.  The second
component is the attempted-removal trace. -/
def KillStack (cli : DockerClient) (stackName : String) :
    Except String Unit × List String :=
  match ServiceList cli stackName with
  | .error e =>
    (.error ("error listing services for stack " ++ stackName ++ ": " ++ e), [])
  | .ok services => killLoop cli services

/-- `RestartStack` (stack.go:73-79): kill, wrap a kill failure, otherwise
report the fixed external-deployment error.  The trace component records
every engine operation the call performs beyond the listing. -/
def RestartStack (cli : DockerClient) (stackName : String) :
    Except String Unit × List String :=
  match KillStack cli stackName with
  | (.error e, tr) => (.error ("error killing stack: " ++ e), tr)
  | (.ok _, tr) =>
    (.error "full stack restart requires external deployment mechanism", tr)

/-- `ViewStackLogs` (stack.go:82-120): per matching service, a header, the
last 50 lines of combined output, and a separator; per-service failures are
inlined and the loop continues. -/
def ViewStackLogs (cli : DockerClient) (stackName : String) :
    Except String String :=
  match ServiceList cli stackName with
  | .error e =>
    .error ("error listing services for stack " ++ stackName ++ ": " ++ e)
  | .ok services =>
    .ok (services.foldl (fun acc s =>
      match cli.serviceLogs s.id ⟨true, true, "50", false⟩ with
      | .error e =>
        acc ++ "Error getting logs for service " ++ s.specName ++ ": " ++ e ++ "\n"
      | .ok stream =>
        let acc := acc ++ "Logs for service: " ++ s.specName ++ "\n"
        let acc :=
          match stream with
          | .error e => acc ++ "Error reading logs: " ++ e ++ "\n"
          | .ok bytes => acc ++ bytes
        acc ++ "\n---\n") "")

/-- `ViewContainerLogs` (stack.go:123-142): last 100 timestamped lines of
combined output for one container identifier, with the two error paths of
the Go code (the call itself, and reading the stream). -/
def ViewContainerLogs (cli : DockerClient) (containerID : String) :
    Except String String :=
  match cli.containerLogs containerID ⟨true, true, "100", true⟩ with
  | .error e =>
    .error ("error getting logs for container " ++ containerID ++ ": " ++ e)
  | .ok stream =>
    match stream with
    | .error e => .error ("error reading container logs: " ++ e)
    | .ok bytes => .ok bytes

/-! ## The UI model (internal/ui/model.go) -/

/-- Per-stack statistics (`StackStats`, model.go:37-43).  The memory/CPU
fields are declared but never populated by the code. -/
@[ext]
structure StackStats where
  Running : Nat
  Stopped : Nat
  Other : Nat
  TotalMemory : String
  TotalCPU : String
deriving DecidableEq, Repr

/-- The application state (`Model`, model.go:16-34).  The `cli` field is
passed separately to the embedded functions; `stackStats` is the Go map as
an insertion-ordered association list. -/
@[ext]
structure Model where
  «stacks» : List String
  selectedStack : Int
  state : String
  logOutput : String
  containers : List Container
  debug : Bool
  stackStats : List (String × StackStats)
  viewportWidth : Int
  viewportHeight : Int
  activeServices : Nat
  totalServices : Nat
  selectedContainer : Int
deriving DecidableEq, Repr

/-- Input events: a key press (`tea.KeyMsg`, by its `String()`), or a
window resize (`tea.WindowSizeMsg`). -/
inductive Msg where
  | key (k : String)
  | windowSize (w h : Int)
deriving DecidableEq, Repr

/-- Go slice indexing with an `int` index: panics (here `none`) when the
index is negative or out of range. -/
def goIndex {α : Type} (xs : List α) (i : Int) : Option α :=
  if i < 0 then none else xs.get? i.toNat

/-- The `case "running"` arm of the classification switch. -/
def isRunningState (c : Container) : Bool :=
  c.state == "running"

/-- The `case "exited", "stopped"` arm of the classification switch. -/
def isStoppedState (c : Container) : Bool :=
  c.state == "exited" || c.state == "stopped"

/-- The `default` arm of the classification switch: any other state
string. -/
def isOtherState (c : Container) : Bool :=
  !(isRunningState c) && !(isStoppedState c)

/-- One iteration of the per-stack container loop shared by `NewModel`
(model.go:64-75) and `updateStackStats` (model.go:222-233): the accumulator
is the stack's statistics so far plus the running `totalServices` and
`activeServices` counters.  The three arms are the Go `switch c.State`. -/
def stackLoopStep (acc : StackStats × Nat × Nat) (c : Container) :
    StackStats × Nat × Nat :=
  let stats := acc.1
  let total := acc.2.1 + 1
  let active := acc.2.2
  if isRunningState c then
    ({ stats with Running := stats.Running + 1 }, total, active + 1)
  else if isStoppedState c then
    ({ stats with Stopped := stats.Stopped + 1 }, total, active)
  else
    ({ stats with Other := stats.Other + 1 }, total, active)

/-- The statistics the loop computes for one stack's container listing
(the spec's pure `computeStats`). -/
def statsOf (cs : List Container) : StackStats :=
  (cs.foldl stackLoopStep (⟨0, 0, 0, "", ""⟩, 0, 0)).1

/-- The whole-directory refresh loop of `updateStackStats`
(model.go:215-235): per stack, list containers (skipping a stack whose
listing fails) and accumulate its statistics map entry and the service
counters. -/
def refreshAllStats (cli : DockerClient) (names : List String) :
    List (String × StackStats) × Nat × Nat :=
  names.foldl (fun acc stack =>
    match ListContainers cli stack with
    | .error _ => acc
    | .ok cs =>
      let r := cs.foldl stackLoopStep (⟨0, 0, 0, "", ""⟩, acc.2.1, acc.2.2)
      (acc.1 ++ [(stack, r.1)], r.2.1, r.2.2)) ([], 0, 0)

/-- `updateStackStats` (model.go:210-236): reset the statistics map and the
two counters, then rebuild them from fresh per-stack container listings. -/
def updateStackStats (cli : DockerClient) (m : Model) : Model :=
  let r := refreshAllStats cli m.stacks
  { m with stackStats := r.1, totalServices := r.2.1, activeServices := r.2.2 }

/-- `Update` (model.go:95-202).  Returns `none` when the Go code would
panic (out-of-range slice index); otherwise `some (m', quit)` where `quit`
records whether the returned command is `tea.Quit`.  Key cases follow the
Go `switch` in order; an unmatched key is a no-op. -/
def Update (cli : DockerClient) (m : Model) (msg : Msg) :
    Option (Model × Bool) :=
  match msg with
  | .windowSize w h =>
    some ({ m with viewportWidth := w, viewportHeight := h }, false)
  | .key k =>
    if k = "q" then
      some (m, true)
    else if k = "enter" then
      if m.state = "stack" then
        let m := { m with state := "containerList", selectedContainer := 0 }
        if 0 < m.stacks.length then
          match goIndex m.stacks m.selectedStack with
          | none => none
          | some s =>
            match ListContainers cli s with
            | .error e =>
              some ({ m with logOutput := "Error listing containers: " ++ e }, false)
            | .ok cs => some ({ m with containers := cs }, false)
        else
          some (m, false)
      else if m.state = "containerList" ∧ 0 < m.containers.length then
        let m := { m with state := "containerLogs" }
        match goIndex m.containers m.selectedContainer with
        | none => none
        | some c =>
          match ViewContainerLogs cli c.id with
          | .error e =>
            some ({ m with logOutput := "Error retrieving container logs: " ++ e,
                           state := "containerList" }, false)
          | .ok logs => some ({ m with logOutput := logs }, false)
      else
        some (m, false)
    else if k = "a" then
      if m.state = "stack" then
        some ({ m with state := "actionMenu" }, false)
      else
        some (m, false)
    else if k = "up" then
      if m.state = "stack" ∧ 0 < m.selectedStack then
        some ({ m with selectedStack := m.selectedStack - 1 }, false)
      else if m.state = "containerList" ∧ 0 < m.selectedContainer then
        some ({ m with selectedContainer := m.selectedContainer - 1 }, false)
      else
        some (m, false)
    else if k = "down" then
      if m.state = "stack" ∧ m.selectedStack < (m.stacks.length : Int) - 1 then
        some ({ m with selectedStack := m.selectedStack + 1 }, false)
      else if m.state = "containerList" ∧
          m.selectedContainer < (m.containers.length : Int) - 1 then
        some ({ m with selectedContainer := m.selectedContainer + 1 }, false)
      else
        some (m, false)
    else if k = "r" then
      if m.state = "actionMenu" then
        match goIndex m.stacks m.selectedStack with
        | none => none
        | some s =>
          let m1 :=
            match (RestartStack cli s).1 with
            | .error e => { m with logOutput := "Error restarting stack: " ++ e }
            | .ok _ =>
              { m with logOutput := "Stack " ++ s ++ " restarted successfully" }
          some ({ m1 with state := "stack" }, false)
      else
        some (m, false)
    else if k = "k" then
      if m.state = "actionMenu" then
        match goIndex m.stacks m.selectedStack with
        | none => none
        | some s =>
          let m1 :=
            match (KillStack cli s).1 with
            | .error e => { m with logOutput := "Error killing stack: " ++ e }
            | .ok _ =>
              { m with logOutput := "Stack " ++ s ++ " killed successfully" }
          let m2 := { m1 with state := "stack" }
          let newStacks :=
            match ListStacks cli with
            | .error _ => ([] : List String)
            | .ok l => l
          some (updateStackStats cli { m2 with «stacks» := newStacks }, false)
      else
        some (m, false)
    else if k = "l" then
      if m.state = "actionMenu" then
        match goIndex m.stacks m.selectedStack with
        | none => none
        | some s =>
          let m1 :=
            match ViewStackLogs cli s with
            | .error e => { m with logOutput := "Error retrieving logs: " ++ e }
            | .ok logs => { m with logOutput := logs }
          some ({ m1 with state := "stack" }, false)
      else
        some (m, false)
    else if k = "escape" ∨ k = "backspace" ∨ k = "b" then
      if m.state = "containerLogs" then
        some ({ m with state := "containerList", logOutput := "" }, false)
      else if m.state = "containerList" then
        some (updateStackStats cli { m with state := "stack" }, false)
      else if m.state = "actionMenu" then
        some ({ m with state := "stack" }, false)
      else
        some (m, false)
    else
      some (m, false)

/-- The navigation-index invariant the spec states: each selection index is
within the bounds of its list whenever that list is non-empty. -/
def Inv (m : Model) : Prop :=
  (m.stacks ≠ [] →
    0 ≤ m.selectedStack ∧ m.selectedStack < (m.stacks.length : Int)) ∧
  (m.containers ≠ [] →
    0 ≤ m.selectedContainer ∧ m.selectedContainer < (m.containers.length : Int))

instance (m : Model) : Decidable (Inv m) := by
  unfold Inv; infer_instance

/-- What one `Update` step guarantees for the selection indices: the
container index stays in bounds; the stack index stays in bounds for every
event except `k` in the action menu (which replaces the stacks list without
re-clamping the index); and `up`/`down` move the respective index by one,
clamped at 0 and at `length - 1`, never wrapping. -/
def NavStepOK (m : Model) (msg : Msg) (m' : Model) : Prop :=
  (m'.containers ≠ [] →
    0 ≤ m'.selectedContainer ∧ m'.selectedContainer < (m'.containers.length : Int)) ∧
  (msg ≠ Msg.key "k" ∨ m.state ≠ "actionMenu" →
    m'.stacks ≠ [] →
    0 ≤ m'.selectedStack ∧ m'.selectedStack < (m'.stacks.length : Int)) ∧
  (msg = Msg.key "up" → m.state = "stack" →
    m'.stacks = m.stacks ∧
    m'.selectedStack =
      if 0 < m.selectedStack then m.selectedStack - 1 else m.selectedStack) ∧
  (msg = Msg.key "down" → m.state = "stack" →
    m'.stacks = m.stacks ∧
    m'.selectedStack =
      if m.selectedStack < (m.stacks.length : Int) - 1 then m.selectedStack + 1
      else m.selectedStack) ∧
  (msg = Msg.key "up" → m.state = "containerList" →
    m'.containers = m.containers ∧
    m'.selectedContainer =
      if 0 < m.selectedContainer then m.selectedContainer - 1
      else m.selectedContainer) ∧
  (msg = Msg.key "down" → m.state = "containerList" →
    m'.containers = m.containers ∧
    m'.selectedContainer =
      if m.selectedContainer < (m.containers.length : Int) - 1 then
        m.selectedContainer + 1
      else m.selectedContainer)

/-! ## Concrete engine oracles and models for witnesses and counterexamples -/

/-- An engine with no services where every call succeeds. -/
def trivialCli : DockerClient where
  allServices := []
  serviceListFilteredErr := fun _ => none
  serviceListAllErr := none
  serviceRemove := fun _ => none
  containerList := fun _ => .ok []
  containerLogs := fun _ _ => .ok (.ok "2024-01-01T00:00:00Z hello\n")
  serviceLogs := fun _ _ => .ok (.ok "")

/-- The spec's three-service `web` stack where removing the second service
fails. -/
def webCli : DockerClient where
  allServices :=
    [⟨"id1", "svc1", [("com.docker.stack.namespace", "web")]⟩,
     ⟨"id2", "svc2", [("com.docker.stack.namespace", "web")]⟩,
     ⟨"id3", "svc3", [("com.docker.stack.namespace", "web")]⟩]
  serviceListFilteredErr := fun _ => none
  serviceListAllErr := none
  serviceRemove := fun id => if id = "id2" then some "boom" else none
  containerList := fun _ => .ok []
  containerLogs := fun _ _ => .ok (.ok "")
  serviceLogs := fun _ _ => .ok (.ok "")

/-- An engine whose unfiltered service listing (hence `ListStacks`) and
container listing fail. -/
def failRelistCli : DockerClient where
  allServices := []
  serviceListFilteredErr := fun _ => none
  serviceListAllErr := some "engine down"
  serviceRemove := fun _ => none
  containerList := fun _ => .error "engine down"
  containerLogs := fun _ _ => .error "engine down"
  serviceLogs := fun _ _ => .error "engine down"

/-- An engine that only knows stack `a`: after killing stack `b`, a
re-listing returns `["a"]`. -/
def cexCli : DockerClient where
  allServices := [⟨"s1", "svc1", [("com.docker.stack.namespace", "a")]⟩]
  serviceListFilteredErr := fun _ => none
  serviceListAllErr := none
  serviceRemove := fun _ => none
  containerList := fun _ => .ok []
  containerLogs := fun _ _ => .ok (.ok "")
  serviceLogs := fun _ _ => .ok (.ok "")

/-- The event loop: feed a sequence of input events through `Update`,
stopping with `none` if a step panics.  The quit command only affects the
runtime, not the model, so it is ignored here. -/
def runEvents (cli : DockerClient) (m : Model) : List Msg → Option Model
  | [] => some m
  | msg :: rest =>
    match Update cli m msg with
    | none => none
    | some (m', _) => runEvents cli m' rest

/-- A sample container in `running` state. -/
def webContainer : Container :=
  ⟨"cid1", ["/web_app_1"], "img:latest", "running"⟩

/-- A baseline application state on the stack-list screen. -/
def baseModel : Model where
  «stacks» := ["web", "db"]
  selectedStack := 0
  state := "stack"
  logOutput := ""
  containers := []
  debug := false
  stackStats := []
  viewportWidth := 100
  viewportHeight := 30
  activeServices := 0
  totalServices := 0
  selectedContainer := 0

/-! ## Helper lemmas -/

lemma goIndex_some_bounds {α : Type} {xs : List α} {i : Int} {a : α}
    (h : goIndex xs i = some a) : 0 ≤ i ∧ i < (xs.length : Int) := by
  unfold goIndex at h
  by_cases hneg : i < 0
  · simp [hneg] at h
  · simp [hneg] at h
    obtain ⟨hlt, -⟩ := List.getElem?_eq_some.mp h
    omega

lemma goIndex_isSome {α : Type} {xs : List α} {i : Int}
    (h0 : 0 ≤ i) (hlt : i < (xs.length : Int)) : ∃ a, goIndex xs i = some a := by
  unfold goIndex
  have hneg : ¬ i < 0 := by omega
  have ht : i.toNat < xs.length := by omega
  exact ⟨xs.get ⟨i.toNat, ht⟩, by simp [hneg, List.get?_eq_getElem?, List.getElem?_eq_getElem ht]⟩

lemma navStepOK_frame (m m' : Model) (k : String) (hInv : Inv m)
    (hks : m'.stacks = m.stacks) (hsel : m'.selectedStack = m.selectedStack)
    (hkc : m'.containers = m.containers)
    (hselc : m'.selectedContainer = m.selectedContainer)
    (hu : k ≠ "up") (hd : k ≠ "down") : NavStepOK m (Msg.key k) m' := by
  obtain ⟨hS, hC⟩ := hInv
  refine ⟨by rw [hkc, hselc]; exact hC, fun _ => by rw [hks, hsel]; exact hS,
    ?_, ?_, ?_, ?_⟩ <;> intro he
  · exact absurd (by simpa using he) hu
  · exact absurd (by simpa using he) hd
  · exact absurd (by simpa using he) hu
  · exact absurd (by simpa using he) hd

lemma killLoop_all_ok (cli : DockerClient) (l : List Service)
    (h : ∀ s ∈ l, cli.serviceRemove s.id = none) :
    killLoop cli l = (.ok (), l.map (fun s => s.id)) := by
  induction l with
  | nil => rfl
  | cons s rest ih =>
    have hs := h s (by simp)
    simp [killLoop, hs, ih (fun x hx => h x (by simp [hx]))]

lemma killLoop_first_fail (cli : DockerClient) (pre : List Service)
    (f : Service) (post : List Service) (err : String)
    (hpre : ∀ s ∈ pre, cli.serviceRemove s.id = none)
    (hf : cli.serviceRemove f.id = some err) :
    killLoop cli (pre ++ f :: post) =
      (.error ("error removing service " ++ f.specName ++ ": " ++ err),
       pre.map (fun s => s.id) ++ [f.id]) := by
  induction pre with
  | nil => simp [killLoop, hf]
  | cons s rest ih =>
    have hs := hpre s (by simp)
    simp [killLoop, hs, ih (fun x hx => hpre x (by simp [hx]))]

lemma stackLoop_fold_spec (cs : List Container) (st : StackStats) (t a : Nat) :
    (cs.foldl stackLoopStep (st, t, a)).1.Running = st.Running + cs.countP isRunningState ∧
    (cs.foldl stackLoopStep (st, t, a)).1.Stopped = st.Stopped + cs.countP isStoppedState ∧
    (cs.foldl stackLoopStep (st, t, a)).1.Other = st.Other + cs.countP isOtherState ∧
    (cs.foldl stackLoopStep (st, t, a)).1.TotalMemory = st.TotalMemory ∧
    (cs.foldl stackLoopStep (st, t, a)).1.TotalCPU = st.TotalCPU ∧
    (cs.foldl stackLoopStep (st, t, a)).2.1 = t + cs.length ∧
    (cs.foldl stackLoopStep (st, t, a)).2.2 = a + cs.countP isRunningState := by
  induction cs generalizing st t a with
  | nil => simp
  | cons c rest ih =>
    simp only [List.foldl_cons, List.countP_cons, List.length_cons]
    by_cases h1 : isRunningState c
    · have hceq : c.state = "running" := by simpa [isRunningState] using h1
      have h2 : isStoppedState c = false := by simp [isStoppedState, hceq]
      have h3 : isOtherState c = false := by simp [isOtherState, h1]
      obtain ⟨i1, i2, i3, i4, i5, i6, i7⟩ :=
        ih { st with Running := st.Running + 1 } (t + 1) (a + 1)
      simp only [stackLoopStep, if_pos h1]
      refine ⟨?_, ?_, ?_, ?_, ?_, ?_, ?_⟩ <;>
        simp [i1, i2, i3, i4, i5, i6, i7, h1, h2, h3] <;> omega
    · by_cases h2 : isStoppedState c
      · have h3 : isOtherState c = false := by simp [isOtherState, h2]
        obtain ⟨i1, i2, i3, i4, i5, i6, i7⟩ :=
          ih { st with Stopped := st.Stopped + 1 } (t + 1) a
        simp only [stackLoopStep, if_neg h1, if_pos h2]
        refine ⟨?_, ?_, ?_, ?_, ?_, ?_, ?_⟩ <;>
          simp [i1, i2, i3, i4, i5, i6, i7, h1, h2, h3] <;> omega
      · have h3 : isOtherState c = true := by simp [isOtherState, h1, h2]
        obtain ⟨i1, i2, i3, i4, i5, i6, i7⟩ :=
          ih { st with Other := st.Other + 1 } (t + 1) a
        simp only [stackLoopStep, if_neg h1, if_neg h2]
        refine ⟨?_, ?_, ?_, ?_, ?_, ?_, ?_⟩ <;>
          simp [i1, i2, i3, i4, i5, i6, i7, h1, h2, h3] <;> omega

lemma classification_partition (cs : List Container) :
    cs.countP isRunningState + cs.countP isStoppedState + cs.countP isOtherState
      = cs.length := by
  induction cs with
  | nil => simp
  | cons c rest ih =>
    simp only [List.countP_cons, List.length_cons]
    by_cases h1 : isRunningState c
    · have hceq : c.state = "running" := by simpa [isRunningState] using h1
      have h2 : isStoppedState c = false := by simp [isStoppedState, hceq]
      have h3 : isOtherState c = false := by simp [isOtherState, h1]
      simp [h1, h2, h3]; omega
    · by_cases h2 : isStoppedState c
      · have h3 : isOtherState c = false := by simp [isOtherState, h2]
        simp [h1, h2, h3]; omega
      · have h3 : isOtherState c = true := by simp [isOtherState, h1, h2]
        simp [h1, h2, h3]; omega

/-! ## Claim theorems -/

/-- C2: `RestartStack` always kills first and never returns success: a kill
failure is propagated wrapped; after a successful kill it unconditionally
returns the external-deployment error; and it performs no engine operation
beyond those of the kill (equal operation traces — the model has no
re-deployment operation and the trace shows none is ever attempted). -/
theorem restartStack_always_fails (cli : DockerClient) (stackName : String) :
    (∃ e, (RestartStack cli stackName).1 = Except.error e) ∧
    ((KillStack cli stackName).1 = .ok () →
      (RestartStack cli stackName).1 =
        .error "full stack restart requires external deployment mechanism") ∧
    (∀ e, (KillStack cli stackName).1 = .error e →
      (RestartStack cli stackName).1 = .error ("error killing stack: " ++ e)) ∧
    (RestartStack cli stackName).2 = (KillStack cli stackName).2 := by
  rcases hK : KillStack cli stackName with ⟨r, tr⟩
  rcases r with e | u
  · refine ⟨⟨"error killing stack: " ++ e, ?_⟩, ?_, ?_, ?_⟩ <;>
      simp [RestartStack, hK]
  · refine ⟨⟨"full stack restart requires external deployment mechanism", ?_⟩, ?_, ?_, ?_⟩ <;>
      simp [RestartStack, hK]

/-- C2 witness: with no matching services the kill succeeds and the restart
still reports the external-deployment error, with an empty operation
trace. -/
theorem restartStack_always_fails_witness :
    (KillStack trivialCli "web").1 = .ok () ∧
    (RestartStack trivialCli "web").1 =
      .error "full stack restart requires external deployment mechanism" :=
  ⟨rfl, (restartStack_always_fails trivialCli "web").2.1 rfl⟩

/-- C3: `KillStack` enumerates exactly the services whose stack-namespace
label matches and removes them in enumeration order.  If every removal
succeeds the trace is the full identifier list; if the removals of a prefix
succeed and the next one fails, the loop aborts: the error names the
failing service, the trace covers only the prefix and the failing attempt,
and the services after the failure are never attempted. -/
theorem killStack_first_failure_aborts (cli : DockerClient) (stackName : String)
    (pre post : List Service) (f : Service) (err : String) :
    (cli.serviceListFilteredErr stackName = none →
      cli.allServices.filter (matchesStack stackName) = pre ++ f :: post →
      (∀ s ∈ pre, cli.serviceRemove s.id = none) →
      cli.serviceRemove f.id = some err →
      KillStack cli stackName =
        (.error ("error removing service " ++ f.specName ++ ": " ++ err),
         pre.map (fun s => s.id) ++ [f.id])) ∧
    (cli.serviceListFilteredErr stackName = none →
      (∀ s ∈ cli.allServices.filter (matchesStack stackName),
        cli.serviceRemove s.id = none) →
      KillStack cli stackName =
        (.ok (), (cli.allServices.filter (matchesStack stackName)).map
          (fun s => s.id))) := by
  constructor
  · intro hOk hFilter hpre hf
    unfold KillStack ServiceList
    rw [hOk]
    simp only [hFilter]
    exact killLoop_first_fail cli pre f post err hpre hf
  · intro hOk hAll
    unfold KillStack ServiceList
    rw [hOk]
    exact killLoop_all_ok cli _ hAll

/-- C3 witness: the spec's scenario — three services of stack `web`, the
second removal fails: the first is removed, the third is never attempted,
and the error names the second service. -/
theorem killStack_first_failure_aborts_witness :
    KillStack webCli "web" =
      (.error "error removing service svc2: boom", ["id1", "id2"]) :=
  (killStack_first_failure_aborts webCli "web"
      [⟨"id1", "svc1", [("com.docker.stack.namespace", "web")]⟩]
      [⟨"id3", "svc3", [("com.docker.stack.namespace", "web")]⟩]
      ⟨"id2", "svc2", [("com.docker.stack.namespace", "web")]⟩ "boom").1
    (by decide) (by decide) (by decide) (by decide)

/-- C4: the statistics computation classifies every container by its
lifecycle-state string — `running` counts into `Running`, `exited`/`stopped`
into `Stopped`, every other string into `Other` — the three buckets sum to
the input length, the reserved fields stay empty, and the result is
independent of the seed counters threaded through the shared loop (so it is
exactly what `updateStackStats` records per stack; being a total function it
has no error path). -/
theorem computeStats_classification (cs : List Container) :
    (statsOf cs).Running = cs.countP isRunningState ∧
    (statsOf cs).Stopped = cs.countP isStoppedState ∧
    (statsOf cs).Other = cs.countP isOtherState ∧
    (statsOf cs).Running + (statsOf cs).Stopped + (statsOf cs).Other = cs.length ∧
    (statsOf cs).TotalMemory = "" ∧ (statsOf cs).TotalCPU = "" ∧
    ∀ t a : Nat, (cs.foldl stackLoopStep (⟨0, 0, 0, "", ""⟩, t, a)).1 = statsOf cs := by
  obtain ⟨h1, h2, h3, h4, h5, -, -⟩ := stackLoop_fold_spec cs ⟨0, 0, 0, "", ""⟩ 0 0
  have hs : ∀ t a : Nat,
      (cs.foldl stackLoopStep (⟨0, 0, 0, "", ""⟩, t, a)).1 = statsOf cs := by
    intro t a
    obtain ⟨g1, g2, g3, g4, g5, -, -⟩ := stackLoop_fold_spec cs ⟨0, 0, 0, "", ""⟩ t a
    unfold statsOf
    apply StackStats.ext <;>
      simp only [g1, g2, g3, g4, g5, h1, h2, h3, h4, h5]
  refine ⟨by simpa [statsOf] using h1, by simpa [statsOf] using h2,
    by simpa [statsOf] using h3, ?_, by simpa [statsOf] using h4,
    by simpa [statsOf] using h5, hs⟩
  have := classification_partition cs
  simp only [statsOf, h1, h2, h3]
  omega

/-- C5: `enter` on the stack-list screen always moves to the container-list
screen and resets the container selection to 0, whatever its prior value
(the conclusion holds for every `m.selectedContainer`); when a stack is
selected, its containers are loaded — on success they replace the cached
list, and on failure the error text is placed in the log output. -/
theorem enter_resets_container_selection (cli : DockerClient) (m : Model)
    (s : String) (h : m.state = "stack") :
    (m.stacks = [] →
      Update cli m (.key "enter") =
        some ({ m with state := "containerList", selectedContainer := 0 }, false)) ∧
    (goIndex m.stacks m.selectedStack = some s →
      (∀ e, ListContainers cli s = .error e →
        Update cli m (.key "enter") =
          some ({ m with state := "containerList", selectedContainer := 0,
                         logOutput := "Error listing containers: " ++ e }, false)) ∧
      (∀ cs, ListContainers cli s = .ok cs →
        Update cli m (.key "enter") =
          some ({ m with state := "containerList", selectedContainer := 0,
                         containers := cs }, false))) := by
  refine ⟨fun he => by simp [Update, h, he], fun hc => ?_⟩
  have hlen : 0 < m.stacks.length := by
    have := goIndex_some_bounds hc
    omega
  exact ⟨fun e hLC => by simp [Update, h, hlen, hc, hLC],
         fun cs hLC => by simp [Update, h, hlen, hc, hLC]⟩

/-- C5 witness: from the stack list with `selectedContainer = 5`, `enter`
lands on the container list with the selection reset to 0 and the listed
containers stored. -/
theorem enter_resets_container_selection_witness :
    Update trivialCli { baseModel with selectedContainer := 5 } (Msg.key "enter") =
      some ({ baseModel with state := "containerList", selectedContainer := 0 }, false) :=
  ((enter_resets_container_selection trivialCli
      { baseModel with selectedContainer := 5 } "web" rfl).2 rfl).2 [] rfl

/-- C6: `enter` on the container-list screen with a selected container
fetches that container's logs; on success the screen becomes the log view
with the fetched text, on failure the log output is the error text and the
screen stays the container list.  The fetch asks the engine for the last
100 lines with timestamps (options `⟨true, true, "100", true⟩`),
propagating both the call error and the stream-read error. -/
theorem enter_container_list_fetches_logs (cli : DockerClient) (m : Model)
    (c : Container) (h : m.state = "containerList")
    (hc : goIndex m.containers m.selectedContainer = some c) :
    (∀ logs, ViewContainerLogs cli c.id = .ok logs →
      Update cli m (.key "enter") =
        some ({ m with state := "containerLogs", logOutput := logs }, false)) ∧
    (∀ e, ViewContainerLogs cli c.id = .error e →
      Update cli m (.key "enter") =
        some ({ m with state := "containerList",
                       logOutput := "Error retrieving container logs: " ++ e }, false)) ∧
    (∀ str, cli.containerLogs c.id ⟨true, true, "100", true⟩ = .ok (.ok str) →
      ViewContainerLogs cli c.id = .ok str) ∧
    (∀ e, cli.containerLogs c.id ⟨true, true, "100", true⟩ = .error e →
      ViewContainerLogs cli c.id =
        .error ("error getting logs for container " ++ c.id ++ ": " ++ e)) := by
  have hlen : 0 < m.containers.length := by
    have := goIndex_some_bounds hc
    omega
  refine ⟨fun logs hV => by simp [Update, h, hlen, hc, hV],
          fun e hV => by simp [Update, h, hlen, hc, hV],
          fun str hraw => by simp [ViewContainerLogs, hraw],
          fun e hraw => by simp [ViewContainerLogs, hraw]⟩

/-- C6 witness: with one running container selected, `enter` shows its
timestamped log text on the log screen. -/
theorem enter_container_list_fetches_logs_witness :
    Update trivialCli
        { baseModel with state := "containerList", containers := [webContainer] }
        (Msg.key "enter") =
      some ({ baseModel with
                state := "containerLogs", containers := [webContainer],
                logOutput := "2024-01-01T00:00:00Z hello\n" }, false) :=
  (enter_container_list_fetches_logs trivialCli
      { baseModel with state := "containerList", containers := [webContainer] }
      webContainer rfl rfl).1 "2024-01-01T00:00:00Z hello\n" rfl

/-- C7: `escape`, `backspace` or `b` on the log screen clears the log text
and returns to the container list; the record update touches no other
field, so the cached containers and both selection indices are kept, and
the equation holds for every engine oracle, so no call is made. -/
theorem escape_from_logs_clears_output (cli : DockerClient) (m : Model)
    (k : String) (h : m.state = "containerLogs")
    (hk : k = "escape" ∨ k = "backspace" ∨ k = "b") :
    Update cli m (.key k) =
      some ({ m with state := "containerList", logOutput := "" }, false) := by
  rcases hk with hk | hk | hk <;> subst hk <;> simp [Update, h]

/-- C7 witness: `escape` from the log view keeps the fetched containers and
clears the log text, with no engine interaction. -/
theorem escape_from_logs_clears_output_witness :
    Update failRelistCli
        { baseModel with
            state := "containerLogs", logOutput := "old logs",
            containers := [webContainer], selectedContainer := 0 }
        (Msg.key "escape") =
      some ({ baseModel with
                state := "containerList",
                containers := [webContainer] }, false) :=
  escape_from_logs_clears_output failRelistCli
    { baseModel with
        state := "containerLogs", logOutput := "old logs",
        containers := [webContainer], selectedContainer := 0 }
    "escape" rfl (Or.inl rfl)

/-- C9: after `k` in the action menu the stack directory and the statistics
are re-fetched and replaced unconditionally — the same equation holds
whether the kill succeeded or failed — and a failure of the re-listing is
discarded: the stacks list then becomes empty (Go `nil`), and with it the
statistics map. -/
theorem kill_replaces_directory_unconditionally (cli : DockerClient)
    (m : Model) (s : String) (h : m.state = "actionMenu")
    (hc : goIndex m.stacks m.selectedStack = some s) :
    Update cli m (.key "k") =
      some (updateStackStats cli
        { m with
          state := "stack",
          logOutput :=
            match (KillStack cli s).1 with
            | .error e => "Error killing stack: " ++ e
            | .ok _ => "Stack " ++ s ++ " killed successfully",
          «stacks» :=
            match ListStacks cli with
            | .error _ => []
            | .ok l => l }, false) ∧
    (∀ e, ListStacks cli = .error e →
      ∃ m', Update cli m (.key "k") = some (m', false) ∧
        m'.stacks = [] ∧ m'.stackStats = []) := by
  have hmain : Update cli m (.key "k") =
      some (updateStackStats cli
        { m with
          state := "stack",
          logOutput :=
            match (KillStack cli s).1 with
            | .error e => "Error killing stack: " ++ e
            | .ok _ => "Stack " ++ s ++ " killed successfully",
          «stacks» :=
            match ListStacks cli with
            | .error _ => []
            | .ok l => l }, false) := by
    rcases hK : (KillStack cli s).1 with e | u <;>
      rcases hL : ListStacks cli with e2 | l <;>
        simp [Update, h, hc, hK, hL]
  refine ⟨hmain, fun e hL => ⟨_, hmain, ?_⟩⟩
  rw [hL]
  simp [updateStackStats, refreshAllStats]

/-- C9 witness: the kill itself succeeds but the re-listing fails; the
error is discarded and the stacks list and statistics map come back
empty. -/
theorem kill_replaces_directory_unconditionally_witness :
    ∃ m', Update failRelistCli { baseModel with state := "actionMenu" }
        (Msg.key "k") = some (m', false) ∧
      m'.stacks = [] ∧ m'.stackStats = [] :=
  (kill_replaces_directory_unconditionally failRelistCli
      { baseModel with state := "actionMenu" } "web" rfl rfl).2
    "engine down" rfl

/-- C10: `enter` on an empty stack list still switches to the container
list — and the result is the same for every engine oracle, so no gateway
call is made; and when the container listing fails, the update touches only
the screen, the reset selection and the log text, so the previously cached
containers list is retained (stale listing shown with the error text). -/
theorem enter_empty_stacks_no_gateway_call (cli cli2 : DockerClient)
    (m : Model) (h : m.state = "stack") :
    (m.stacks = [] →
      Update cli m (.key "enter") =
        some ({ m with state := "containerList", selectedContainer := 0 }, false) ∧
      Update cli m (.key "enter") = Update cli2 m (.key "enter")) ∧
    (∀ s e, goIndex m.stacks m.selectedStack = some s →
      ListContainers cli s = .error e →
      Update cli m (.key "enter") =
        some ({ m with state := "containerList", selectedContainer := 0,
                       logOutput := "Error listing containers: " ++ e }, false)) := by
  constructor
  · intro he
    constructor <;> simp [Update, h, he]
  · intro s e hc hLC
    have hlen : 0 < m.stacks.length := by
      have := goIndex_some_bounds hc
      omega
    simp [Update, h, hlen, hc, hLC]

/-- C10 witness: with no stacks, `enter` moves to the container list and
the result is identical under an engine that answers every call and one
that fails every call — no call is made; and with a failing listing the
stale containers list survives next to the error text. -/
theorem enter_empty_stacks_no_gateway_call_witness :
    (Update trivialCli { baseModel with «stacks» := [] } (Msg.key "enter") =
      some ({ baseModel with «stacks» := [], state := "containerList" }, false) ∧
     Update trivialCli { baseModel with «stacks» := [] } (Msg.key "enter") =
      Update failRelistCli { baseModel with «stacks» := [] } (Msg.key "enter")) ∧
    Update failRelistCli { baseModel with containers := [webContainer] }
        (Msg.key "enter") =
      some ({ baseModel with
                containers := [webContainer],
                state := "containerList",
                logOutput :=
                  "Error listing containers: error listing containers for stack web: engine down" },
        false) :=
  ⟨(enter_empty_stacks_no_gateway_call trivialCli failRelistCli
      { baseModel with «stacks» := [] } rfl).1 rfl,
   (enter_empty_stacks_no_gateway_call failRelistCli trivialCli
      { baseModel with containers := [webContainer] } rfl).2
     "web" "error listing containers for stack web: engine down" rfl rfl⟩

/-- C8: the `r`/`k`/`l` handlers read `stacks[selectedStack]` with no bounds
check: under the precondition that the stack list is non-empty and the
index is in range the access succeeds (no panic); with an empty stack list
all three handlers panic (`none`); and the state machine does not establish
the precondition — `a` moves from the stack list to the action menu
unconditionally, also when the stack list is empty. -/
theorem action_menu_unchecked_access (cli : DockerClient) (m : Model) :
    (m.state = "actionMenu" →
      0 ≤ m.selectedStack → m.selectedStack < (m.stacks.length : Int) →
      (Update cli m (.key "r")).isSome ∧ (Update cli m (.key "k")).isSome ∧
        (Update cli m (.key "l")).isSome) ∧
    (m.state = "actionMenu" → m.stacks = [] →
      Update cli m (.key "r") = none ∧ Update cli m (.key "k") = none ∧
        Update cli m (.key "l") = none) ∧
    (m.state = "stack" →
      Update cli m (.key "a") = some ({ m with state := "actionMenu" }, false)) := by
  refine ⟨fun h h0 hlt => ?_, fun h he => ?_, fun h => by simp [Update, h]⟩
  · obtain ⟨s, hs⟩ := goIndex_isSome h0 hlt
    refine ⟨?_, ?_, ?_⟩
    · rcases hR : (RestartStack cli s).1 with e | u <;> simp [Update, h, hs, hR]
    · rcases hK : (KillStack cli s).1 with e | u <;>
        rcases hL : ListStacks cli with e2 | l <;> simp [Update, h, hs, hK, hL]
    · rcases hV : ViewStackLogs cli s with e | lg <;> simp [Update, h, hs, hV]
  · have hg : goIndex m.stacks m.selectedStack = none := by
      unfold goIndex
      rw [he]
      split <;> simp
    refine ⟨?_, ?_, ?_⟩ <;> simp [Update, h, hg]

/-- C8 witness: from an empty stack list, `a` still reaches the action
menu, where `r` dereferences the empty list and panics. -/
theorem action_menu_unchecked_access_witness :
    Update trivialCli { baseModel with «stacks» := [] } (Msg.key "a") =
      some ({ baseModel with «stacks» := [], state := "actionMenu" }, false) ∧
    Update trivialCli { baseModel with «stacks» := [], state := "actionMenu" }
      (Msg.key "r") = none :=
  ⟨(action_menu_unchecked_access trivialCli
      { baseModel with «stacks» := [] }).2.2 rfl,
   ((action_menu_unchecked_access trivialCli
      { baseModel with «stacks» := [], state := "actionMenu" }).2.1 rfl rfl).1⟩

/-- C1 (amended): starting from a state whose selection indices are in
bounds, one `Update` step keeps the container index in bounds, keeps the
stack index in bounds for every event except `k` in the action menu, and
moves `up`/`down` by exactly one, clamped at both ends with no wraparound
(`NavStepOK`).  The `k` handler is excluded because it replaces the stacks
list without re-clamping `selectedStack` (see the counterexample). -/
theorem nav_step_preserves_bounds (cli : DockerClient) (m : Model) (msg : Msg)
    (m' : Model) (q : Bool) (hInv : Inv m)
    (hU : Update cli m msg = some (m', q)) : NavStepOK m msg m' := by
  obtain ⟨hS, hC⟩ := hInv
  cases msg with
  | windowSize w h =>
    simp [Update] at hU
    obtain ⟨h1, -⟩ := hU
    subst h1
    exact ⟨hC, fun _ => hS, by simp, by simp, by simp, by simp⟩
  | key k =>
    by_cases hq : k = "q"
    · subst hq
      simp [Update] at hU
      obtain ⟨h1, -⟩ := hU
      subst h1
      exact navStepOK_frame m m "q" ⟨hS, hC⟩ rfl rfl rfl rfl (by decide) (by decide)
    by_cases hent : k = "enter"
    · subst hent
      by_cases hst : m.state = "stack"
      · by_cases hlen : 0 < m.stacks.length
        · rcases hgi : goIndex m.stacks m.selectedStack with - | s
          · simp [Update, hst, hlen, hgi] at hU
          · rcases hLC : ListContainers cli s with e | cs
            · simp [Update, hst, hlen, hgi, hLC] at hU
              obtain ⟨h1, -⟩ := hU
              subst h1
              refine ⟨fun hne => ?_, fun _ => hS, by simp, by simp, by simp,
                by simp⟩
              dsimp only at hne ⊢
              have := List.length_pos.mpr hne
              constructor <;> omega
            · simp [Update, hst, hlen, hgi, hLC] at hU
              obtain ⟨h1, -⟩ := hU
              subst h1
              refine ⟨fun hne => ?_, fun _ => hS, by simp, by simp, by simp,
                by simp⟩
              dsimp only at hne ⊢
              have := List.length_pos.mpr hne
              constructor <;> omega
        · simp [Update, hst, hlen] at hU
          obtain ⟨h1, -⟩ := hU
          subst h1
          refine ⟨fun hne => ?_, fun _ => hS, by simp, by simp, by simp,
            by simp⟩
          dsimp only at hne ⊢
          have := List.length_pos.mpr hne
          constructor <;> omega
      · by_cases hcl : m.state = "containerList" ∧ 0 < m.containers.length
        · rcases hgi : goIndex m.containers m.selectedContainer with - | c
          · simp [Update, hst, hcl, hgi] at hU
          · rcases hV : ViewContainerLogs cli c.id with e | logs
            · simp [Update, hst, hcl, hgi, hV] at hU
              obtain ⟨h1, -⟩ := hU
              subst h1
              exact navStepOK_frame m _ "enter" ⟨hS, hC⟩ rfl rfl rfl rfl
                (by decide) (by decide)
            · simp [Update, hst, hcl, hgi, hV] at hU
              obtain ⟨h1, -⟩ := hU
              subst h1
              exact navStepOK_frame m _ "enter" ⟨hS, hC⟩ rfl rfl rfl rfl
                (by decide) (by decide)
        · simp [Update, hst, hcl] at hU
          obtain ⟨h1, -⟩ := hU
          subst h1
          exact navStepOK_frame m m "enter" ⟨hS, hC⟩ rfl rfl rfl rfl
            (by decide) (by decide)
    by_cases ha : k = "a"
    · subst ha
      by_cases hst : m.state = "stack"
      · simp [Update, hst] at hU
        obtain ⟨h1, -⟩ := hU
        subst h1
        exact navStepOK_frame m _ "a" ⟨hS, hC⟩ rfl rfl rfl rfl
          (by decide) (by decide)
      · simp [Update, hst] at hU
        obtain ⟨h1, -⟩ := hU
        subst h1
        exact navStepOK_frame m m "a" ⟨hS, hC⟩ rfl rfl rfl rfl
          (by decide) (by decide)
    by_cases hup2 : k = "up"
    · subst hup2
      by_cases h1 : m.state = "stack" ∧ 0 < m.selectedStack
      · simp [Update, h1] at hU
        obtain ⟨hm, -⟩ := hU
        subst hm
        obtain ⟨hA, hB⟩ := h1
        refine ⟨hC, fun _ hne => ?_, fun _ _ => ⟨rfl, by rw [if_pos hB]⟩,
          by simp, ?_, by simp⟩
        · obtain ⟨hx, hy⟩ := hS hne
          dsimp only
          constructor <;> omega
        · intro _ hstate
          rw [hA] at hstate
          simp at hstate
      · by_cases h2 : m.state = "containerList" ∧ 0 < m.selectedContainer
        · simp [Update, h1, h2] at hU
          obtain ⟨hm, -⟩ := hU
          subst hm
          obtain ⟨hA, hB⟩ := h2
          refine ⟨fun hne => ?_, fun _ => hS, ?_,
            by simp, fun _ _ => ⟨rfl, by rw [if_pos hB]⟩, by simp⟩
          · obtain ⟨hx, hy⟩ := hC hne
            dsimp only at hne ⊢
            constructor <;> omega
          · intro _ hstate
            rw [hA] at hstate
            simp at hstate
        · simp [Update, h1, h2] at hU
          obtain ⟨hm, -⟩ := hU
          subst hm
          refine ⟨hC, fun _ => hS, fun _ hstate => ⟨rfl, ?_⟩,
            by simp, fun _ hstate => ⟨rfl, ?_⟩, by simp⟩
          · have hnp : ¬ 0 < m.selectedStack := fun hp => h1 ⟨hstate, hp⟩
            rw [if_neg hnp]
          · have hnp : ¬ 0 < m.selectedContainer := fun hp => h2 ⟨hstate, hp⟩
            rw [if_neg hnp]
    by_cases hdn : k = "down"
    · subst hdn
      by_cases h1 : m.state = "stack" ∧ m.selectedStack < (m.stacks.length : Int) - 1
      · simp [Update, h1] at hU
        obtain ⟨hm, -⟩ := hU
        subst hm
        obtain ⟨hA, hB⟩ := h1
        refine ⟨hC, fun _ hne => ?_, by simp,
          fun _ _ => ⟨rfl, by rw [if_pos hB]⟩, by simp, ?_⟩
        · obtain ⟨hx, hy⟩ := hS hne
          dsimp only
          constructor <;> omega
        · intro _ hstate
          rw [hA] at hstate
          simp at hstate
      · by_cases h2 : m.state = "containerList" ∧
            m.selectedContainer < (m.containers.length : Int) - 1
        · simp [Update, h1, h2] at hU
          obtain ⟨hm, -⟩ := hU
          subst hm
          obtain ⟨hA, hB⟩ := h2
          refine ⟨fun hne => ?_, fun _ => hS, by simp, ?_,
            by simp, fun _ _ => ⟨rfl, by rw [if_pos hB]⟩⟩
          · obtain ⟨hx, hy⟩ := hC hne
            dsimp only at hne ⊢
            constructor <;> omega
          · intro _ hstate
            rw [hA] at hstate
            simp at hstate
        · simp [Update, h1, h2] at hU
          obtain ⟨hm, -⟩ := hU
          subst hm
          refine ⟨hC, fun _ => hS, by simp, fun _ hstate => ⟨rfl, ?_⟩,
            by simp, fun _ hstate => ⟨rfl, ?_⟩⟩
          · have hnp : ¬ m.selectedStack < (m.stacks.length : Int) - 1 :=
              fun hp => h1 ⟨hstate, hp⟩
            rw [if_neg hnp]
          · have hnp : ¬ m.selectedContainer < (m.containers.length : Int) - 1 :=
              fun hp => h2 ⟨hstate, hp⟩
            rw [if_neg hnp]
    by_cases hr : k = "r"
    · subst hr
      by_cases hst : m.state = "actionMenu"
      · rcases hgi : goIndex m.stacks m.selectedStack with - | s
        · simp [Update, hst, hgi] at hU
        · rcases hR : (RestartStack cli s).1 with e | u
          · simp [Update, hst, hgi, hR] at hU
            obtain ⟨hm, -⟩ := hU
            subst hm
            exact navStepOK_frame m _ "r" ⟨hS, hC⟩ rfl rfl rfl rfl
              (by decide) (by decide)
          · simp [Update, hst, hgi, hR] at hU
            obtain ⟨hm, -⟩ := hU
            subst hm
            exact navStepOK_frame m _ "r" ⟨hS, hC⟩ rfl rfl rfl rfl
              (by decide) (by decide)
      · simp [Update, hst] at hU
        obtain ⟨hm, -⟩ := hU
        subst hm
        exact navStepOK_frame m m "r" ⟨hS, hC⟩ rfl rfl rfl rfl
          (by decide) (by decide)
    by_cases hkk : k = "k"
    · subst hkk
      by_cases hst : m.state = "actionMenu"
      · rcases hgi : goIndex m.stacks m.selectedStack with - | s
        · simp [Update, hst, hgi] at hU
        · rcases hK : (KillStack cli s).1 with e | u <;>
            rcases hL : ListStacks cli with e2 | l <;>
            · simp [Update, hst, hgi, hK, hL] at hU
              obtain ⟨hm, -⟩ := hU
              subst hm
              exact ⟨hC,
                fun hor => absurd hst (hor.resolve_left (not_not_intro rfl)),
                by simp, by simp, by simp, by simp⟩
      · simp [Update, hst] at hU
        obtain ⟨hm, -⟩ := hU
        subst hm
        exact navStepOK_frame m m "k" ⟨hS, hC⟩ rfl rfl rfl rfl
          (by decide) (by decide)
    by_cases hl : k = "l"
    · subst hl
      by_cases hst : m.state = "actionMenu"
      · rcases hgi : goIndex m.stacks m.selectedStack with - | s
        · simp [Update, hst, hgi] at hU
        · rcases hV : ViewStackLogs cli s with e | lg
          · simp [Update, hst, hgi, hV] at hU
            obtain ⟨hm, -⟩ := hU
            subst hm
            exact navStepOK_frame m _ "l" ⟨hS, hC⟩ rfl rfl rfl rfl
              (by decide) (by decide)
          · simp [Update, hst, hgi, hV] at hU
            obtain ⟨hm, -⟩ := hU
            subst hm
            exact navStepOK_frame m _ "l" ⟨hS, hC⟩ rfl rfl rfl rfl
              (by decide) (by decide)
      · simp [Update, hst] at hU
        obtain ⟨hm, -⟩ := hU
        subst hm
        exact navStepOK_frame m m "l" ⟨hS, hC⟩ rfl rfl rfl rfl
          (by decide) (by decide)
    by_cases hesc : k = "escape" ∨ k = "backspace" ∨ k = "b"
    · rcases hesc with h | h | h <;> subst h <;>
      · by_cases h1 : m.state = "containerLogs"
        · simp [Update, h1] at hU
          obtain ⟨hm, -⟩ := hU
          subst hm
          exact navStepOK_frame m _ _ ⟨hS, hC⟩ rfl rfl rfl rfl
            (by decide) (by decide)
        · by_cases h2 : m.state = "containerList"
          · simp [Update, h1, h2] at hU
            obtain ⟨hm, -⟩ := hU
            subst hm
            exact navStepOK_frame m _ _ ⟨hS, hC⟩ rfl rfl rfl rfl
              (by decide) (by decide)
          · by_cases h3 : m.state = "actionMenu"
            · simp [Update, h1, h2, h3] at hU
              obtain ⟨hm, -⟩ := hU
              subst hm
              exact navStepOK_frame m _ _ ⟨hS, hC⟩ rfl rfl rfl rfl
                (by decide) (by decide)
            · simp [Update, h1, h2, h3] at hU
              obtain ⟨hm, -⟩ := hU
              subst hm
              exact navStepOK_frame m m _ ⟨hS, hC⟩ rfl rfl rfl rfl
                (by decide) (by decide)
    · simp [Update, hq, hent, ha, hup2, hdn, hr, hkk, hl, hesc] at hU
      obtain ⟨hm, -⟩ := hU
      subst hm
      exact navStepOK_frame m m k ⟨hS, hC⟩ rfl rfl rfl rfl hup2 hdn

/-- C1 witness: from the baseline two-stack state, `down` moves the
selection from 0 to 1 and every `NavStepOK` guarantee holds. -/
theorem nav_step_preserves_bounds_witness :
    NavStepOK baseModel (Msg.key "down") { baseModel with selectedStack := 1 } :=
  nav_step_preserves_bounds trivialCli baseModel (Msg.key "down")
    { baseModel with selectedStack := 1 } false (by decide) (by decide)

/-- C1 counterexample: the claimed invariant is not preserved by every
input event.  From stacks `["a", "b"]` with the second stack selected, the
event sequence `down`, `a`, `k` kills stack `b`; the re-listing (here an
engine that only knows stack `a` — the invariant, as claimed, must hold for
every gateway behaviour, and `Update` never compares the new listing with
the old) returns the shorter list `["a"]`, while `selectedStack` stays 1:
the final state has non-empty `stacks` with `selectedStack = 1 ≥ 1 =
len(stacks)`, violating the claimed bound. -/
theorem kill_can_break_selection_bound :
    Inv { baseModel with «stacks» := ["a", "b"] } ∧
    (runEvents cexCli { baseModel with «stacks» := ["a", "b"] }
        [Msg.key "down", Msg.key "a", Msg.key "k"]).map
      (fun mf => (mf.stacks, mf.selectedStack, decide (Inv mf))) =
      some (["a"], (1 : Int), false) :=
  ⟨by decide, by decide⟩

end Pulse
